import Mathlib

/-
  Verification of the tic-tac-toe game core.

  Shallow embedding of the gameBoard / gameControl modules.  JavaScript
  values are modelled as follows: a grid cell holds `null`, `"x"` or `"o"`,
  modelled as `Option Mark`; the module-level mutable state (`grid`,
  `numMarks`, `player1`, `player2`, `turn`) is threaded explicitly; a
  function that can `throw` returns `Except JsError _`; the sentinel
  `false` return of `placeMark` / `playTurn` is the `rejected` constructor
  of `PlaceResult`.
-/

/-- A mark: the string constants MARK_X = "x" and MARK_O = "o". -/
inductive Mark
  | x
  | o
deriving DecidableEq

/-- A grid cell: `null` (empty) or a mark. -/
abbrev Cell := Option Mark

/-- The `states` object: one of "xWin", "oWin", "tie", "ongoing". -/
inductive BState
  | xWin
  | oWin
  | tie
  | ongoing
deriving DecidableEq

/-- What `placeMark` (and hence `playTurn`) returns: the sentinel `false`
(rejected) or a state from `states`. -/
inductive PlaceResult
  | rejected
  | state (s : BState)
deriving DecidableEq

/-- An abnormal outcome of a JavaScript function: `thrown msg` models an
explicit `throw Error(msg)`; `typeError` models the runtime TypeError raised
by a property access on `undefined` (no explicit guard in the source). -/
inductive JsError
  | thrown (msg : String)
  | typeError
deriving DecidableEq

def errNotStarted : String := "A game has not started yet"

def errAlreadyCreated : String := "The players are already created"

def errInProgress : String := "A game is already in progress"

def errNoPlayers : String := "Players must be created first"

/-- The gameBoard module state: the 3x3 `grid` and the `numMarks` counter. -/
structure GameBoard where
  grid : List (List Cell)
  numMarks : Nat
deriving DecidableEq

/-- The `winnerConfigs` table: eight boolean masks over the flattened grid
(3 horizontals, 3 verticals, 2 diagonals). -/
def winnerConfigs : List (List Bool) :=
  [ -- horizontals
    [true , true , true , false, false, false, false, false, false],
    [false, false, false, true , true , true , false, false, false],
    [false, false, false, false, false, false, true , true , true ],
    -- verticals
    [true , false, false, true , false, false, true , false, false],
    [false, true , false, false, true , false, false, true , false],
    [false, false, true , false, false, true , false, false, true ],
    -- diagonals
    [true , false, false, false, true , false, false, false, true ],
    [false, false, true , false, true , false, true , false, false] ]

/-- The initial grid value: three rows of `[null, null, null]`. -/
def emptyGrid : List (List Cell) :=
  [[none, none, none], [none, none, none], [none, none, none]]

/-- Reading `grid[i][j]` (defined for coordinates inside the 3x3 grid,
which is all the core's callers supply). -/
def getCell (grid : List (List Cell)) (i j : Nat) : Cell :=
  (grid.getD i []).getD j none

/-- Writing `grid[i][j] = c` (row `i` is updated in place). -/
def setCell (grid : List (List Cell)) (i j : Nat) (c : Cell) : List (List Cell) :=
  grid.set i ((grid.getD i []).set j c)

/-- The number of non-empty cells of the grid (the quantity `numMarks`
is meant to track). -/
def countMarks (grid : List (List Cell)) : Nat :=
  grid.flatten.countP (fun c => c.isSome)

/-- The grid has the 3x3 shape the module establishes at startup. -/
def wellFormed (grid : List (List Cell)) : Prop :=
  ∃ c00 c01 c02 c10 c11 c12 c20 c21 c22 : Cell,
    grid = [[c00, c01, c02], [c10, c11, c12], [c20, c21, c22]]

/-- isBlank of the permissive variant: `grid[i][j] === null`, no bounds
validation. -/
def isBlank (b : GameBoard) (i j : Nat) : Bool :=
  decide (getCell b.grid i j = none)

/-- The body of the inner loop of computeWinningMark:
`gridFlat.map((val, i) => val === mark && config[i])
        .every((maskedVal, i) => maskedVal === config[i])`.
Pairing each flattened cell with the mask entry of the same index (the two
lists both have length 9), the mapped value at an index is
`(val = mark) && config[i]`, and `every` demands it equal `config[i]`. -/
def isMarkWinner (gridFlat : List Cell) (config : List Bool) (m : Mark) : Bool :=
  (gridFlat.zip config).all (fun p => ((decide (p.1 = some m)) && p.2) == p.2)

/-- computeWinningMark: scan the winner configurations in order, for each
trying MARK_X then MARK_O, returning the first mark whose mask matches. -/
def computeWinningMark (grid : List (List Cell)) : Option Mark :=
  let gridFlat := grid.flatten
  winnerConfigs.findSome? (fun config =>
    [Mark.x, Mark.o].findSome? (fun m =>
      if isMarkWinner gridFlat config m then some m else none))

/-- computeState: a winning mark (checked first) gives xWin / oWin; else a
full board (numMarks === 9) gives tie; else ongoing. -/
def computeState (grid : List (List Cell)) (numMarks : Nat) : BState :=
  match computeWinningMark grid with
  | some Mark.x => BState.xWin
  | some Mark.o => BState.oWin
  | none => if numMarks = 9 then BState.tie else BState.ongoing

/-- placeMark of the permissive variant: reject when the cell is occupied,
otherwise write the mark, bump numMarks and return the fresh state. -/
def placeMark (b : GameBoard) (i j : Nat) (m : Mark) : PlaceResult × GameBoard :=
  if !isBlank b i j then (PlaceResult.rejected, b)
  else
    let b2 : GameBoard := ⟨setCell b.grid i j (some m), b.numMarks + 1⟩
    (PlaceResult.state (computeState b2.grid b2.numMarks), b2)

/-- resetBoard: every row is replaced by a fresh `[null, null, null]` and
numMarks is zeroed; on the 3-row grid this yields exactly `emptyGrid`. -/
def resetBoard (_b : GameBoard) : GameBoard :=
  ⟨emptyGrid, 0⟩

/-- A player object: the captured `name` and the mutable `score`. -/
structure Player where
  name : String
  score : Nat
deriving DecidableEq

/-- createPlayer of the scoring variant: score starts at 0. -/
def createPlayer (name : String) : Player :=
  ⟨name, 0⟩

/-- Player.incrementScore: `score++`. -/
def Player.incrementScore (p : Player) : Player :=
  ⟨p.name, p.score + 1⟩

/-- The gameControl module state: the two (possibly undefined) players, the
turn indicator (1, 2, or null) and the gameBoard it drives. -/
structure GameControl where
  player1 : Option Player
  player2 : Option Player
  turn : Option Nat
  board : GameBoard
deriving DecidableEq

/-- hasGameBegun: `turn !== null`. -/
def hasGameBegun (g : GameControl) : Bool :=
  g.turn.isSome

/-- toggleTurn: throws before a game has begun, else swaps 1 and 2. -/
def toggleTurn (g : GameControl) : Except JsError GameControl :=
  if !hasGameBegun g then Except.error (JsError.thrown errNotStarted)
  else Except.ok { g with turn := if g.turn = some 1 then some 2 else some 1 }

/-- getNextMark: null before a game has begun, else the mark of the
turn-holder. -/
def getNextMark (g : GameControl) : Option Mark :=
  if !hasGameBegun g then none
  else some (if g.turn = some 1 then Mark.x else Mark.o)

/-- The `markToPlace` computed inside playTurn: `(turn === 1) ? MARK_X : MARK_O`. -/
def markToPlace (g : GameControl) : Mark :=
  if g.turn = some 1 then Mark.x else Mark.o

/-- createPlayers: throws when both players already exist or a game is in
progress, else instantiates the two players. -/
def createPlayers (g : GameControl) (name1 name2 : String) : Except JsError GameControl :=
  if g.player1.isSome && g.player2.isSome then
    Except.error (JsError.thrown errAlreadyCreated)
  else if hasGameBegun g then
    Except.error (JsError.thrown errInProgress)
  else
    Except.ok { g with player1 := some (createPlayer name1),
                       player2 := some (createPlayer name2) }

/-- playGame: throws when a player is missing or a game is in progress,
else resets the board and hands the turn to player 1. -/
def playGame (g : GameControl) : Except JsError GameControl :=
  if g.player1.isNone || g.player2.isNone then
    Except.error (JsError.thrown errNoPlayers)
  else if hasGameBegun g then
    Except.error (JsError.thrown errInProgress)
  else
    Except.ok { g with board := resetBoard g.board, turn := some 1 }

/-- endGame: nullify `turn` (the board is deliberately not reset). -/
def endGame (g : GameControl) : GameControl :=
  { g with turn := none }

/-- playTurn: throws before a game has begun; otherwise delegates to
gameBoard.placeMark with the turn-holder's mark.  A rejected placement is
passed through (`return false`); an ongoing state toggles the turn; a win
increments the winner's score (a TypeError if that player is undefined) and
ends the game; a tie just ends the game. -/
def playTurn (g : GameControl) (i j : Nat) : Except JsError (PlaceResult × GameControl) :=
  if !hasGameBegun g then Except.error (JsError.thrown errNotStarted)
  else
    match placeMark g.board i j (markToPlace g) with
    | (PlaceResult.rejected, b2) => Except.ok (PlaceResult.rejected, { g with board := b2 })
    | (PlaceResult.state s, b2) =>
      let g2 : GameControl := { g with board := b2 }
      match s with
      | BState.ongoing =>
        match toggleTurn g2 with
        | Except.error e => Except.error e
        | Except.ok g3 => Except.ok (PlaceResult.state s, g3)
      | BState.xWin =>
        match g2.player1 with
        | none => Except.error JsError.typeError
        | some p =>
          Except.ok (PlaceResult.state s, endGame { g2 with player1 := some p.incrementScore })
      | BState.oWin =>
        match g2.player2 with
        | none => Except.error JsError.typeError
        | some p =>
          Except.ok (PlaceResult.state s, endGame { g2 with player2 := some p.incrementScore })
      | BState.tie => Except.ok (PlaceResult.state s, endGame g2)

/-- A player summary returned by getPlayerData: name and score. -/
structure PlayerData where
  name : String
  score : Nat
deriving DecidableEq

/-- getPlayerData: reads `player1.getName()` first, so an undefined player
raises an unguarded TypeError; with both players present it returns their
names and scores. -/
def getPlayerData (g : GameControl) : Except JsError (PlayerData × PlayerData) :=
  match g.player1, g.player2 with
  | none, _ => Except.error JsError.typeError
  | some _, none => Except.error JsError.typeError
  | some p1, some p2 => Except.ok (⟨p1.name, p1.score⟩, ⟨p2.name, p2.score⟩)

namespace Strict

/-- The error kinds thrown by the strict-validation variant of the board. -/
inductive BoardError
  | outOfRange
  | badMark
  | notBlank
deriving DecidableEq

/-- isBlank of the strict-validation variant: throws when a coordinate is
outside [0, 2], else reads the cell. -/
def isBlank (grid : List (List Cell)) (i j : Int) : Except BoardError Bool :=
  if i < 0 ∨ j < 0 ∨ i > 2 ∨ j > 2 then Except.error BoardError.outOfRange
  else Except.ok (decide (getCell grid i.toNat j.toNat = none))

/-- placeMark of the strict-validation variant: bounds check, mark check
(vacuous over the closed `Mark` type), occupied-cell check, then write. -/
def placeMark (b : GameBoard) (i j : Int) (m : Mark) : Except BoardError GameBoard :=
  if i < 0 ∨ j < 0 ∨ i > 2 ∨ j > 2 then Except.error BoardError.outOfRange
  else if m ≠ Mark.x ∧ m ≠ Mark.o then Except.error BoardError.badMark
  else
    match isBlank b.grid i j with
    | Except.error e => Except.error e
    | Except.ok blank =>
      if !blank then Except.error BoardError.notBlank
      else Except.ok ⟨setCell b.grid i.toNat j.toNat (some m), b.numMarks + 1⟩

end Strict

namespace Alias

/-
  Reference-level model of `getGridCopy` (`return [...grid]`).  JavaScript
  arrays are heap objects mutated through references: the outer `grid` array
  holds three references to row arrays.  The spread copies only the outer
  array, so the copy holds the SAME three row references.
-/

/-- Heap address of a row array. -/
abbrev Addr := Nat

/-- The heap of row arrays: each address maps to the current contents of
that row object. -/
structure Store where
  rows : Addr → List Cell

/-- The board's outer grid array: three row references. -/
structure BoardRef where
  rowAddrs : List Addr

/-- getGridCopy: `[...grid]` builds a new outer array whose elements are
the same row references (a shallow copy). -/
def getGridCopy (b : BoardRef) : List Addr :=
  b.rowAddrs

/-- The assignment `row[j] = c` performed through a row reference: the row
object at that address is mutated in the heap. -/
def writeCell (s : Store) (a : Addr) (j : Nat) (c : Cell) : Store :=
  ⟨fun a2 => if a2 = a then (s.rows a).set j c else s.rows a2⟩

/-- The grid contents the board observes (what isBlank, placeMark and a
later getGridCopy read through the board's own row references). -/
def readGrid (s : Store) (b : BoardRef) : List (List Cell) :=
  b.rowAddrs.map s.rows

/-- A concrete board whose three rows live at addresses 0, 1, 2. -/
def board0 : BoardRef :=
  ⟨[0, 1, 2]⟩

/-- The heap at startup: every row object is `[null, null, null]`. -/
def store0 : Store :=
  ⟨fun _ => [none, none, none]⟩

end Alias

/-- The mark of the other player. -/
def otherMark : Mark → Mark
  | Mark.x => Mark.o
  | Mark.o => Mark.x

/-- The win state announced for a winning mark. -/
def winState : Mark → BState
  | Mark.x => BState.xWin
  | Mark.o => BState.oWin

/-- All three cells selected by a winner configuration hold the mark. -/
def patternAll (grid : List (List Cell)) (config : List Bool) (m : Mark) : Prop :=
  ∀ idx < 9, config.getD idx false = true → grid.flatten.getD idx none = some m

instance (grid : List (List Cell)) (config : List Bool) (m : Mark) :
    Decidable (patternAll grid config m) :=
  inferInstanceAs (Decidable (∀ idx, idx < 9 → config.getD idx false = true →
    grid.flatten.getD idx none = some m))

/-- A run of playTurn calls that are all rejected placements, relating the
state before to the state after. -/
def rejectedRun : GameControl → List (Nat × Nat) → GameControl → Prop
  | g, [], g2 => g2 = g
  | g, p :: l, g2 =>
    ∃ gm, playTurn g p.1 p.2 = Except.ok (PlaceResult.rejected, gm) ∧ rejectedRun gm l g2

/-- Board states reachable through the board's own interface: the startup
grid, in-range placements, and resets. -/
inductive ReachableBoard : GameBoard → Prop
  | start : ReachableBoard ⟨emptyGrid, 0⟩
  | place (b : GameBoard) (i j : Nat) (m : Mark) :
      ReachableBoard b → i < 3 → j < 3 → ReachableBoard (placeMark b i j m).2
  | reset (b : GameBoard) : ReachableBoard b → ReachableBoard (resetBoard b)

/-- The board invariant: 3x3 shape, numMarks counts the non-empty cells,
and numMarks never exceeds 9. -/
def boardInv (b : GameBoard) : Prop :=
  wellFormed b.grid ∧ b.numMarks = countMarks b.grid ∧ b.numMarks ≤ 9

/-
  Concrete sample states used by the witness theorems.
-/

def nameAnn : String := "ANN"

def nameBo : String := "BO"

/-- A board with one mark at (0, 0). -/
def bOccupied : GameBoard :=
  ⟨[[some Mark.x, none, none], [none, none, none], [none, none, none]], 1⟩

/-- An in-progress game over `bOccupied`, player 2 to move. -/
def gOccupied : GameControl :=
  ⟨some ⟨nameAnn, 0⟩, some ⟨nameBo, 0⟩, some 2, bOccupied⟩

/-- A session before createPlayers has ever run. -/
def gNoPlayers : GameControl :=
  ⟨none, none, none, ⟨emptyGrid, 0⟩⟩

/-- A board with eight marks; (0, 2) is blank and an x there wins row 0. -/
def bNearFull : GameBoard :=
  ⟨[[some Mark.x, some Mark.x, none],
    [some Mark.o, some Mark.o, some Mark.x],
    [some Mark.x, some Mark.o, some Mark.o]], 8⟩

/-- A concluded session: x won on `bWon`, scores updated, turn nulled. -/
def bWon : GameBoard :=
  ⟨[[some Mark.x, some Mark.x, some Mark.x],
    [some Mark.o, some Mark.o, none],
    [none, none, none]], 5⟩

def gConcluded : GameControl :=
  ⟨some ⟨nameAnn, 1⟩, some ⟨nameBo, 0⟩, none, bWon⟩

/-- C1: placing onto a non-empty cell is rejected by placeMark with the
board untouched, and by playTurn with the whole control state (grid, fill
count and turn indicator) untouched. -/
theorem claim1_occupied_cell_rejected :
    (∀ (b : GameBoard) (i j : Nat) (m : Mark), isBlank b i j = false →
      placeMark b i j m = (PlaceResult.rejected, b)) ∧
    (∀ (g : GameControl) (i j : Nat), hasGameBegun g = true →
      isBlank g.board i j = false →
      playTurn g i j = Except.ok (PlaceResult.rejected, g)) := by
  constructor
  · intro b i j m hb
    simp [placeMark, hb]
  · intro g i j hg hb
    simp [playTurn, hg, placeMark, hb]

theorem claim1_witness :
    placeMark bOccupied 0 0 Mark.o = (PlaceResult.rejected, bOccupied) ∧
    playTurn gOccupied 0 0 = Except.ok (PlaceResult.rejected, gOccupied) :=
  ⟨claim1_occupied_cell_rejected.1 bOccupied 0 0 Mark.o (by decide),
   claim1_occupied_cell_rejected.2 gOccupied 0 0 (by decide) (by decide)⟩

/-- C2: a placement that fills the ninth cell and completes a winning line
returns the win state of the winning mark, never tie (the win check runs
before the fill-count check). -/
theorem claim2_ninth_cell_win_not_tie :
    ∀ (b : GameBoard) (i j : Nat) (mk m : Mark),
      isBlank b i j = true → b.numMarks = 8 →
      computeWinningMark (setCell b.grid i j (some mk)) = some m →
      (placeMark b i j mk).1 = PlaceResult.state (winState m) ∧
      (placeMark b i j mk).1 ≠ PlaceResult.state BState.tie := by
  intro b i j mk m hb h8 hw
  have hres : placeMark b i j mk =
      (PlaceResult.state (computeState (setCell b.grid i j (some mk)) (b.numMarks + 1)),
       ⟨setCell b.grid i j (some mk), b.numMarks + 1⟩) := by
    simp [placeMark, hb]
  rw [hres]
  cases m <;> simp [computeState, hw, winState]

theorem claim2_witness :
    (placeMark bNearFull 0 2 Mark.x).1 = PlaceResult.state (winState Mark.x) ∧
    (placeMark bNearFull 0 2 Mark.x).1 ≠ PlaceResult.state BState.tie :=
  claim2_ninth_cell_win_not_tie bNearFull 0 2 Mark.x Mark.x (by decide) (by decide) (by decide)

/-- C3: `getGridCopy` is a shallow copy - it returns a fresh outer array
holding the board's own row references, so writing a cell through the
snapshot changes the grid the board itself observes: cell (0, 0) of the
startup board is blank, yet after `snapshot[0][0] = "x"` the board's
isBlank(0, 0) is false and its grid holds the mark. -/
theorem claim3_snapshot_shallow_copy_bug :
    isBlank ⟨Alias.readGrid Alias.store0 Alias.board0, 0⟩ 0 0 = true ∧
    Alias.getGridCopy Alias.board0 = Alias.board0.rowAddrs ∧
    isBlank ⟨Alias.readGrid
      (Alias.writeCell Alias.store0 ((Alias.getGridCopy Alias.board0).getD 0 0) 0 (some Mark.x))
      Alias.board0, 0⟩ 0 0 = false ∧
    Alias.readGrid
      (Alias.writeCell Alias.store0 ((Alias.getGridCopy Alias.board0).getD 0 0) 0 (some Mark.x))
      Alias.board0 =
      [[some Mark.x, none, none], [none, none, none], [none, none, none]] := by
  refine ⟨by decide, rfl, by decide, by decide⟩

/-- C7: playGame fails when the players were never created, fails when a
game is in progress, and otherwise (players exist, turn is null - e.g.
after a concluded game) resets the board to all-empty with fill count 0,
hands the turn to player 1, and leaves both players untouched. -/
theorem claim7_playGame_lifecycle (g : GameControl) :
    (g.player1 = none ∨ g.player2 = none →
      playGame g = Except.error (JsError.thrown errNoPlayers)) ∧
    (g.player1.isSome = true → g.player2.isSome = true → hasGameBegun g = true →
      playGame g = Except.error (JsError.thrown errInProgress)) ∧
    (g.player1.isSome = true → g.player2.isSome = true → g.turn = none →
      playGame g = Except.ok { g with board := ⟨emptyGrid, 0⟩, turn := some 1 }) := by
  refine ⟨?_, ?_, ?_⟩
  · intro h
    rcases h with h | h <;> simp [playGame, h]
  · intro h1 h2 hg
    simp [playGame, Option.isNone_iff_eq_none, Option.isSome_iff_ne_none.mp h1,
      Option.isSome_iff_ne_none.mp h2, hg]
  · intro h1 h2 ht
    simp [playGame, Option.isNone_iff_eq_none, Option.isSome_iff_ne_none.mp h1,
      Option.isSome_iff_ne_none.mp h2, hasGameBegun, ht, resetBoard]

theorem claim7_witness :
    playGame gNoPlayers = Except.error (JsError.thrown errNoPlayers) ∧
    playGame gOccupied = Except.error (JsError.thrown errInProgress) ∧
    playGame gConcluded = Except.ok { gConcluded with board := ⟨emptyGrid, 0⟩, turn := some 1 } :=
  ⟨(claim7_playGame_lifecycle gNoPlayers).1 (Or.inl rfl),
   (claim7_playGame_lifecycle gOccupied).2.1 rfl rfl rfl,
   (claim7_playGame_lifecycle gConcluded).2.2 rfl rfl rfl⟩

/-- C9: in the strict-validation variant, isBlank and placeMark fail with
the out-of-range error whenever a coordinate lies outside [0, 2]. -/
theorem claim9_strict_bounds_validation
    (grid : List (List Cell)) (b : GameBoard) (i j : Int) (m : Mark)
    (h : i < 0 ∨ j < 0 ∨ i > 2 ∨ j > 2) :
    Strict.isBlank grid i j = Except.error Strict.BoardError.outOfRange ∧
    Strict.placeMark b i j m = Except.error Strict.BoardError.outOfRange := by
  constructor
  · rw [Strict.isBlank, if_pos h]
  · rw [Strict.placeMark, if_pos h]

theorem claim9_witness :
    Strict.isBlank emptyGrid 3 0 = Except.error Strict.BoardError.outOfRange ∧
    Strict.placeMark ⟨emptyGrid, 0⟩ 3 0 Mark.x = Except.error Strict.BoardError.outOfRange :=
  claim9_strict_bounds_validation emptyGrid ⟨emptyGrid, 0⟩ 3 0 Mark.x
    (Or.inr (Or.inr (Or.inl (by decide))))

/-- C10: getPlayerData has the unstated precondition that the players
exist - with a missing player it fails with the unguarded TypeError (not a
thrown protocol error), and with both players present it returns both
names and scores. -/
theorem claim10_getPlayerData_precondition (g : GameControl) :
    (g.player1 = none → getPlayerData g = Except.error JsError.typeError) ∧
    (∀ p1, g.player1 = some p1 → g.player2 = none →
      getPlayerData g = Except.error JsError.typeError) ∧
    (∀ p1 p2, g.player1 = some p1 → g.player2 = some p2 →
      getPlayerData g = Except.ok (⟨p1.name, p1.score⟩, ⟨p2.name, p2.score⟩)) := by
  refine ⟨?_, ?_, ?_⟩
  · intro h
    simp [getPlayerData, h]
  · intro p1 h1 h2
    simp [getPlayerData, h1, h2]
  · intro p1 p2 h1 h2
    simp [getPlayerData, h1, h2]

theorem claim10_witness :
    getPlayerData gNoPlayers = Except.error JsError.typeError ∧
    getPlayerData gOccupied = Except.ok (⟨nameAnn, 0⟩, ⟨nameBo, 0⟩) :=
  ⟨(claim10_getPlayerData_precondition gNoPlayers).1 rfl,
   (claim10_getPlayerData_precondition gOccupied).2.2 ⟨nameAnn, 0⟩ ⟨nameBo, 0⟩ rfl rfl⟩

/-- The score of a possibly-undefined player (0 when undefined). -/
def scoreOf : Option Player → Nat
  | none => 0
  | some p => p.score

/-- A rejected placeMark leaves the board untouched. -/
theorem placeMark_rejected_board (b : GameBoard) (i j : Nat) (m : Mark) (b2 : GameBoard)
    (h : placeMark b i j m = (PlaceResult.rejected, b2)) : b2 = b := by
  by_cases hb : isBlank b i j
  · simp [placeMark, hb] at h
  · simp [placeMark, hb] at h
    exact h.symm

/-- Case characterization of a non-throwing playTurn call. -/
theorem playTurn_ok_inv (g : GameControl) (i j : Nat) (r : PlaceResult) (g2 : GameControl)
    (h : playTurn g i j = Except.ok (r, g2)) :
    (r = PlaceResult.rejected ∧ g2 = g) ∨
    (∃ s b2, placeMark g.board i j (markToPlace g) = (PlaceResult.state s, b2) ∧
      r = PlaceResult.state s ∧
      ((s = BState.ongoing ∧
          g2 = { g with board := b2, turn := if g.turn = some 1 then some 2 else some 1 }) ∨
       (s = BState.xWin ∧ ∃ p1, g.player1 = some p1 ∧
          g2 = { g with board := b2, player1 := some ⟨p1.name, p1.score + 1⟩, turn := none }) ∨
       (s = BState.oWin ∧ ∃ p2, g.player2 = some p2 ∧
          g2 = { g with board := b2, player2 := some ⟨p2.name, p2.score + 1⟩, turn := none }) ∨
       (s = BState.tie ∧ g2 = { g with board := b2, turn := none }))) := by
  by_cases hg : hasGameBegun g
  · unfold playTurn at h
    rcases hpm : placeMark g.board i j (markToPlace g) with ⟨r0, b2⟩
    rw [hpm] at h
    simp only [hg, Bool.not_true, Bool.false_eq_true, if_false] at h
    cases r0 with
    | rejected =>
      simp only [Except.ok.injEq, Prod.mk.injEq] at h
      left
      refine ⟨h.1.symm, ?_⟩
      have hb := placeMark_rejected_board g.board i j (markToPlace g) b2 hpm
      subst hb
      rw [← h.2]
    | state s =>
      right
      cases s with
      | ongoing =>
        simp only [toggleTurn, hasGameBegun] at h
        simp only [hasGameBegun] at hg
        simp only [hg, Bool.not_true, Bool.false_eq_true, if_false, Except.ok.injEq,
          Prod.mk.injEq] at h
        exact ⟨BState.ongoing, b2, rfl, h.1.symm, Or.inl ⟨rfl, h.2.symm⟩⟩
      | xWin =>
        cases hp1 : g.player1 with
        | none =>
          rw [hp1] at h
          exact absurd h (by simp)
        | some p =>
          simp only [hp1, endGame, Player.incrementScore, Except.ok.injEq,
            Prod.mk.injEq] at h
          exact ⟨BState.xWin, b2, rfl, h.1.symm,
            Or.inr (Or.inl ⟨rfl, p, rfl, h.2.symm⟩)⟩
      | oWin =>
        cases hp2 : g.player2 with
        | none =>
          rw [hp2] at h
          exact absurd h (by simp)
        | some p =>
          simp only [hp2, endGame, Player.incrementScore, Except.ok.injEq,
            Prod.mk.injEq] at h
          exact ⟨BState.oWin, b2, rfl, h.1.symm,
            Or.inr (Or.inr (Or.inl ⟨rfl, p, rfl, h.2.symm⟩))⟩
      | tie =>
        simp only [endGame, Except.ok.injEq, Prod.mk.injEq] at h
        exact ⟨BState.tie, b2, rfl, h.1.symm, Or.inr (Or.inr (Or.inr ⟨rfl, h.2.symm⟩))⟩
  · simp [playTurn, hg] at h

/-- A rejected playTurn leaves the whole control state untouched. -/
theorem playTurn_rejected_eq (g : GameControl) (i j : Nat) (g2 : GameControl)
    (h : playTurn g i j = Except.ok (PlaceResult.rejected, g2)) : g2 = g := by
  rcases playTurn_ok_inv g i j PlaceResult.rejected g2 h with ⟨_, hq⟩ | ⟨s, b2, _, hr, _⟩
  · exact hq
  · exact absurd hr (by simp)

/-- A run of rejected playTurn calls goes nowhere. -/
theorem rejectedRun_eq (l : List (Nat × Nat)) :
    ∀ g g2 : GameControl, rejectedRun g l g2 → g2 = g := by
  induction l with
  | nil => intro g g2 h; exact h
  | cons p l ih =>
    intro g g2 h
    obtain ⟨gm, hpt, hrest⟩ := h
    have h1 := playTurn_rejected_eq g p.1 p.2 gm hpt
    have h2 := ih gm g2 hrest
    rw [h2, h1]

/-- The start of a fresh game between ANN (x) and BO (o). -/
def gStart : GameControl :=
  ⟨some ⟨nameAnn, 0⟩, some ⟨nameBo, 0⟩, some 1, ⟨emptyGrid, 0⟩⟩

/-- State after `playTurn 0 0` from `gStart`: x at (0, 0), player 2 to move. -/
def gAfter1 : GameControl :=
  ⟨some ⟨nameAnn, 0⟩, some ⟨nameBo, 0⟩, some 2,
   ⟨[[some Mark.x, none, none], [none, none, none], [none, none, none]], 1⟩⟩

/-- An in-progress game one x-placement away from a row-0 win for x. -/
def gBeforeWin : GameControl :=
  ⟨some ⟨nameAnn, 0⟩, some ⟨nameBo, 0⟩, some 1,
   ⟨[[some Mark.x, some Mark.x, none],
     [some Mark.o, some Mark.o, none],
     [none, none, none]], 4⟩⟩

/-- C5: after a playTurn call that returns Ongoing, and any interleaving
run of rejected placements (which change nothing), the mark the next
playTurn call places is the other player's mark. -/
theorem claim5_turns_alternate
    (g : GameControl) (i j : Nat) (g2 : GameControl)
    (attempts : List (Nat × Nat)) (g3 : GameControl)
    (h : playTurn g i j = Except.ok (PlaceResult.state BState.ongoing, g2))
    (hrun : rejectedRun g2 attempts g3) :
    markToPlace g3 = otherMark (markToPlace g) ∧ hasGameBegun g3 = true := by
  have h32 : g3 = g2 := rejectedRun_eq attempts g2 g3 hrun
  rcases playTurn_ok_inv g i j (PlaceResult.state BState.ongoing) g2 h with
    ⟨hr, _⟩ | ⟨s, b2, _, hr, hcase⟩
  · exact absurd hr (by simp)
  · have hs : s = BState.ongoing := by
      have := hr
      simp only [PlaceResult.state.injEq] at this
      exact this.symm
    subst hs
    rcases hcase with ⟨_, hq⟩ | ⟨hc, _⟩ | ⟨hc, _⟩ | ⟨hc, _⟩
    · subst h32
      subst hq
      by_cases ht : g.turn = some 1 <;>
        simp [markToPlace, otherMark, hasGameBegun, ht]
    · exact absurd hc (by simp)
    · exact absurd hc (by simp)
    · exact absurd hc (by simp)

theorem claim5_witness :
    markToPlace gAfter1 = otherMark (markToPlace gStart) ∧
    hasGameBegun gAfter1 = true :=
  claim5_turns_alternate gStart 0 0 gAfter1 [(0, 0)] gAfter1
    (by rfl) ⟨gAfter1, by rfl, rfl⟩

/-- C6: a playTurn call changes the scores exactly when it returns a win -
player1 gains one on xWin, player2 gains one on oWin, nothing changes on a
tie, an ongoing result or a rejected placement - scores never decrease,
and every terminal result nulls the turn (so a further increment would
first require a new game). -/
theorem claim6_score_accounting
    (g : GameControl) (i j : Nat) (r : PlaceResult) (g2 : GameControl)
    (h : playTurn g i j = Except.ok (r, g2)) :
    (r = PlaceResult.state BState.xWin →
      ∃ p1, g.player1 = some p1 ∧ g2.player1 = some ⟨p1.name, p1.score + 1⟩ ∧
        g2.player2 = g.player2 ∧ g2.turn = none) ∧
    (r = PlaceResult.state BState.oWin →
      ∃ p2, g.player2 = some p2 ∧ g2.player2 = some ⟨p2.name, p2.score + 1⟩ ∧
        g2.player1 = g.player1 ∧ g2.turn = none) ∧
    (r = PlaceResult.rejected ∨ r = PlaceResult.state BState.ongoing ∨
        r = PlaceResult.state BState.tie →
      g2.player1 = g.player1 ∧ g2.player2 = g.player2) ∧
    (r = PlaceResult.state BState.tie → g2.turn = none) ∧
    scoreOf g.player1 ≤ scoreOf g2.player1 ∧ scoreOf g.player2 ≤ scoreOf g2.player2 := by
  rcases playTurn_ok_inv g i j r g2 h with ⟨hr, hq⟩ | ⟨s, b2, _, hr, hcase⟩
  · subst hr
    subst hq
    refine ⟨by simp, by simp, fun _ => ⟨rfl, rfl⟩, by simp, le_refl _, le_refl _⟩
  · subst hr
    rcases hcase with ⟨hs, hq⟩ | ⟨hs, p1, hp1, hq⟩ | ⟨hs, p2, hp2, hq⟩ | ⟨hs, hq⟩ <;>
      subst hs <;> subst hq
    · refine ⟨by simp, by simp, fun _ => ⟨rfl, rfl⟩, by simp, le_refl _, le_refl _⟩
    · refine ⟨fun _ => ⟨p1, hp1, rfl, rfl, rfl⟩, by simp, by simp, by simp, ?_, le_refl _⟩
      simp [hp1, scoreOf]
    · refine ⟨by simp, fun _ => ⟨p2, hp2, rfl, rfl, rfl⟩, by simp, by simp, le_refl _, ?_⟩
      simp [hp2, scoreOf]
    · refine ⟨by simp, by simp, fun _ => ⟨rfl, rfl⟩, fun _ => rfl, le_refl _, le_refl _⟩

theorem claim6_witness :
    ∃ p1, gBeforeWin.player1 = some p1 ∧
      gConcluded.player1 = some ⟨p1.name, p1.score + 1⟩ ∧
      gConcluded.player2 = gBeforeWin.player2 ∧ gConcluded.turn = none :=
  (claim6_score_accounting gBeforeWin 0 2 (PlaceResult.state BState.xWin) gConcluded
    (by rfl)).1 rfl

/-- Writing a mark into a blank in-range cell of a 3x3 grid keeps the 3x3
shape and raises the non-empty-cell count by exactly one. -/
theorem setCell_marks (a0 a1 a2 a3 a4 a5 a6 a7 a8 : Cell) (i j : Nat) (m : Mark)
    (hi : i < 3) (hj : j < 3)
    (hblank : getCell [[a0, a1, a2], [a3, a4, a5], [a6, a7, a8]] i j = none) :
    wellFormed (setCell [[a0, a1, a2], [a3, a4, a5], [a6, a7, a8]] i j (some m)) ∧
    countMarks (setCell [[a0, a1, a2], [a3, a4, a5], [a6, a7, a8]] i j (some m)) =
      countMarks [[a0, a1, a2], [a3, a4, a5], [a6, a7, a8]] + 1 := by
  interval_cases i <;> interval_cases j
  all_goals
    simp [getCell] at hblank
    subst hblank
    refine ⟨⟨_, _, _, _, _, _, _, _, _, rfl⟩, ?_⟩
    simp [countMarks, setCell, List.countP_cons, List.countP_nil]
    try omega

/-- A 3x3 grid has at most nine non-empty cells. -/
theorem countMarks_le_nine (grid : List (List Cell)) (h : wellFormed grid) :
    countMarks grid ≤ 9 := by
  obtain ⟨a0, a1, a2, a3, a4, a5, a6, a7, a8, rfl⟩ := h
  calc countMarks [[a0, a1, a2], [a3, a4, a5], [a6, a7, a8]]
      ≤ ([[a0, a1, a2], [a3, a4, a5], [a6, a7, a8]] : List (List Cell)).flatten.length :=
        List.countP_le_length _
    _ = 9 := by simp

/-- placeMark preserves the board invariant for in-range coordinates. -/
theorem placeMark_preserves_inv (b : GameBoard) (i j : Nat) (m : Mark)
    (hb : boardInv b) (hi : i < 3) (hj : j < 3) : boardInv (placeMark b i j m).2 := by
  obtain ⟨grid, n⟩ := b
  have hwf : wellFormed grid := hb.1
  have hcount : n = countMarks grid := hb.2.1
  by_cases hblank : isBlank ⟨grid, n⟩ i j
  · obtain ⟨a0, a1, a2, a3, a4, a5, a6, a7, a8, hg⟩ := hwf
    subst hg
    have hcell : getCell [[a0, a1, a2], [a3, a4, a5], [a6, a7, a8]] i j = none := by
      simpa [isBlank] using hblank
    have hsm := setCell_marks a0 a1 a2 a3 a4 a5 a6 a7 a8 i j m hi hj hcell
    have h2 : (placeMark ⟨[[a0, a1, a2], [a3, a4, a5], [a6, a7, a8]], n⟩ i j m).2 =
        ⟨setCell [[a0, a1, a2], [a3, a4, a5], [a6, a7, a8]] i j (some m), n + 1⟩ := by
      simp [placeMark, hblank]
    rw [h2]
    have hnine := countMarks_le_nine _ hsm.1
    refine ⟨hsm.1, ?_, ?_⟩
    · show n + 1 = countMarks (setCell [[a0, a1, a2], [a3, a4, a5], [a6, a7, a8]] i j (some m))
      rw [hsm.2, ← hcount]
    · show n + 1 ≤ 9
      omega
  · have h2 : (placeMark ⟨grid, n⟩ i j m).2 = ⟨grid, n⟩ := by
      simp [placeMark, hblank]
    rw [h2]
    exact hb

/-- The startup and post-reset board satisfies the invariant. -/
theorem emptyBoard_inv : boardInv ⟨emptyGrid, 0⟩ :=
  ⟨⟨none, none, none, none, none, none, none, none, none, rfl⟩, rfl, Nat.zero_le 9⟩

/-- Every reachable board satisfies the invariant. -/
theorem reachable_boardInv (b : GameBoard) (h : ReachableBoard b) : boardInv b := by
  induction h with
  | start => exact emptyBoard_inv
  | place b i j m _ hi hj ih => exact placeMark_preserves_inv b i j m ih hi hj
  | reset b _ _ => exact emptyBoard_inv

/-- C8: at every reachable board state numMarks equals the number of
non-empty cells and lies in [0, 9]; placeMark preserves the invariant and
resetBoard restores the all-empty board with count 0. -/
theorem claim8_fill_count_invariant :
    (∀ b : GameBoard, ReachableBoard b →
      b.numMarks = countMarks b.grid ∧ b.numMarks ≤ 9) ∧
    (∀ (b : GameBoard) (i j : Nat) (m : Mark),
      boardInv b → i < 3 → j < 3 → boardInv (placeMark b i j m).2) ∧
    (∀ b : GameBoard, resetBoard b = ⟨emptyGrid, 0⟩ ∧ countMarks emptyGrid = 0) := by
  refine ⟨?_, ?_, ?_⟩
  · intro b h
    have hi := reachable_boardInv b h
    exact ⟨hi.2.1, hi.2.2⟩
  · exact fun b i j m hb hi hj => placeMark_preserves_inv b i j m hb hi hj
  · exact fun b => ⟨rfl, rfl⟩

theorem claim8_witness :
    ((⟨emptyGrid, 0⟩ : GameBoard).numMarks = countMarks (⟨emptyGrid, 0⟩ : GameBoard).grid ∧
      (⟨emptyGrid, 0⟩ : GameBoard).numMarks ≤ 9) ∧
    boardInv (placeMark ⟨emptyGrid, 0⟩ 1 1 Mark.x).2 ∧
    (resetBoard bOccupied = ⟨emptyGrid, 0⟩ ∧ countMarks emptyGrid = 0) :=
  ⟨claim8_fill_count_invariant.1 ⟨emptyGrid, 0⟩ ReachableBoard.start,
   claim8_fill_count_invariant.2.1 ⟨emptyGrid, 0⟩ 1 1 Mark.x emptyBoard_inv
     (by omega) (by omega),
   claim8_fill_count_invariant.2.2 bOccupied⟩

/-- The mask-matching loop body succeeds exactly when every cell selected
by the mask holds the mark (lists of equal length). -/
theorem isMarkWinner_iff (m : Mark) :
    ∀ (config : List Bool) (flat : List Cell), flat.length = config.length →
      (isMarkWinner flat config m = true ↔
        ∀ idx < config.length, config.getD idx false = true →
          flat.getD idx none = some m) := by
  intro config
  induction config with
  | nil =>
    intro flat _
    simp [isMarkWinner]
  | cons c cs ih =>
    intro flat hlen
    cases flat with
    | nil => simp at hlen
    | cons f fs =>
      simp only [List.length_cons, Nat.succ.injEq] at hlen
      have head_iff : ((((decide (f = some m)) && c) == c) = true) ↔
          (c = true → f = some m) := by
        cases c <;> simp
      have step : isMarkWinner (f :: fs) (c :: cs) m =
          (((((decide (f = some m)) && c) == c) && isMarkWinner fs cs m) : Bool) := rfl
      constructor
      · intro h idx hidx hc
        rw [step, Bool.and_eq_true] at h
        cases idx with
        | zero =>
          simp only [List.getD_cons_zero] at hc ⊢
          exact head_iff.mp h.1 hc
        | succ k =>
          simp only [List.getD_cons_succ] at hc ⊢
          exact (ih fs hlen).mp h.2 k (by simpa using hidx) hc
      · intro h
        rw [step, Bool.and_eq_true]
        refine ⟨head_iff.mpr ?_, (ih fs hlen).mpr ?_⟩
        · intro hc
          have := h 0 (by simp) (by simpa using hc)
          simpa using this
        · intro k hk hck
          have := h (k + 1) (by simpa using hk) (by simpa using hck)
          simpa using this

/-- Scanning the configurations, with the inner mark loop trying x then o:
when no configuration matches the other mark and some configuration matches
the mark, the scan returns that mark. -/
theorem findSome?_configs (flat : List Cell) (m : Mark) :
    ∀ configs : List (List Bool),
      (∀ c ∈ configs, isMarkWinner flat c (otherMark m) = false) →
      (∃ c ∈ configs, isMarkWinner flat c m = true) →
      configs.findSome? (fun config =>
        [Mark.x, Mark.o].findSome? (fun mk =>
          if isMarkWinner flat config mk then some mk else none)) = some m := by
  intro configs
  induction configs with
  | nil =>
    intro _ hex
    simp at hex
  | cons c cs ih =>
    intro hno hex
    rw [List.findSome?_cons]
    by_cases hx : isMarkWinner flat c Mark.x
    · cases m with
      | x => simp [List.findSome?_cons, hx]
      | o => exact absurd hx (by simpa [otherMark] using hno c (List.mem_cons_self c cs))
    · by_cases ho : isMarkWinner flat c Mark.o
      · cases m with
        | o => simp [List.findSome?_cons, hx, ho]
        | x => exact absurd ho (by simpa [otherMark] using hno c (List.mem_cons_self c cs))
      · have hinner : [Mark.x, Mark.o].findSome?
            (fun mk => if isMarkWinner flat c mk then some mk else none) = none := by
          simp [List.findSome?_cons, hx, ho]
        rw [hinner]
        apply ih
        · intro d hd
          exact hno d (List.mem_cons_of_mem c hd)
        · rcases hex with ⟨d, hd, hw⟩
          rcases List.mem_cons.mp hd with rfl | hd2
          · cases m with
            | x => exact absurd hw hx
            | o => exact absurd hw ho
          · exact ⟨d, hd2, hw⟩

/-- C4 (amended): on a 3x3 grid where some win pattern is uniformly filled
with a mark and no pattern is uniformly filled with the other mark, the
state computation reports the win of that mark, whatever the fill count
(hence whatever order the marks were placed in).  The extra hypothesis is
forced: on a grid where both marks complete a pattern the scan reports the
first match (see the counterexample). -/
theorem claim4_uniform_pattern_gives_win
    (grid : List (List Cell)) (m : Mark) (numMarks : Nat)
    (hwf : wellFormed grid)
    (hwin : ∃ config ∈ winnerConfigs, patternAll grid config m)
    (hother : ∀ config ∈ winnerConfigs, ¬ patternAll grid config (otherMark m)) :
    computeState grid numMarks = winState m := by
  obtain ⟨a0, a1, a2, a3, a4, a5, a6, a7, a8, rfl⟩ := hwf
  have hfl : ([[a0, a1, a2], [a3, a4, a5], [a6, a7, a8]] : List (List Cell)).flatten =
      [a0, a1, a2, a3, a4, a5, a6, a7, a8] := by simp
  have h9 : ∀ c ∈ winnerConfigs, c.length = 9 := by decide
  have hbridge : ∀ c ∈ winnerConfigs, ∀ mk : Mark,
      (isMarkWinner [a0, a1, a2, a3, a4, a5, a6, a7, a8] c mk = true ↔
        patternAll [[a0, a1, a2], [a3, a4, a5], [a6, a7, a8]] c mk) := by
    intro c hc mk
    have hlen : ([a0, a1, a2, a3, a4, a5, a6, a7, a8] : List Cell).length = c.length := by
      rw [h9 c hc]
      rfl
    rw [isMarkWinner_iff mk c _ hlen]
    unfold patternAll
    rw [hfl, h9 c hc]
  have hcw : computeWinningMark [[a0, a1, a2], [a3, a4, a5], [a6, a7, a8]] = some m := by
    unfold computeWinningMark
    rw [hfl]
    apply findSome?_configs
    · intro c hc
      cases hb : isMarkWinner [a0, a1, a2, a3, a4, a5, a6, a7, a8] c (otherMark m) with
      | false => rfl
      | true => exact absurd ((hbridge c hc (otherMark m)).mp hb) (hother c hc)
    · rcases hwin with ⟨c, hc, hp⟩
      exact ⟨c, hc, (hbridge c hc m).mpr hp⟩
  cases m <;> simp [computeState, hcw, winState]

/-- C4 as literally stated is false: on the (unreachable in legal play)
grid whose row 0 is all x and row 1 is all o, the row-1 pattern is
uniformly o, yet the computation reports xWin, not oWin. -/
theorem claim4_counterexample :
    wellFormed [[some Mark.x, some Mark.x, some Mark.x],
                [some Mark.o, some Mark.o, some Mark.o],
                [none, none, none]] ∧
    (∃ config ∈ winnerConfigs,
      patternAll [[some Mark.x, some Mark.x, some Mark.x],
                  [some Mark.o, some Mark.o, some Mark.o],
                  [none, none, none]] config Mark.o) ∧
    computeState [[some Mark.x, some Mark.x, some Mark.x],
                  [some Mark.o, some Mark.o, some Mark.o],
                  [none, none, none]] 6 ≠ winState Mark.o := by
  refine ⟨⟨_, _, _, _, _, _, _, _, _, rfl⟩, ?_, ?_⟩
  · exact ⟨[false, false, false, true, true, true, false, false, false],
      by decide, by decide⟩
  · decide

theorem claim4_witness :
    computeState [[some Mark.x, some Mark.x, some Mark.x],
                  [some Mark.o, some Mark.o, none],
                  [none, none, none]] 5 = winState Mark.x :=
  claim4_uniform_pattern_gives_win
    [[some Mark.x, some Mark.x, some Mark.x],
     [some Mark.o, some Mark.o, none],
     [none, none, none]] Mark.x 5
    ⟨_, _, _, _, _, _, _, _, _, rfl⟩
    ⟨[true, true, true, false, false, false, false, false, false], by decide, by decide⟩
    (by decide)
